import Mathlib

/-!
Shallow embedding of the task-synchronization core of the
`google-task-desktop` application (files `src/api/google_tasks.py`,
`src/auth/google_auth.py`, `src/ui/components.py`), together with
theorems settling the spec claims about it.

Effects are made explicit: the outcome of each remote call and of each
credential operation is passed in as data, and each embedded function
returns the values the code would produce together with the state it
would leave behind (messages shown, payloads sent, files written).
-/

set_option autoImplicit false

namespace GTasks

/-- Errors raised by remote calls: an `HttpError` carrying its
`resp.status`, or any non-HTTP exception. -/
inductive ApiError where
  | http (status : Nat)
  | other
deriving DecidableEq, Repr

/-- Outcome record of one run of `GoogleTasksAPI.handle_api_error`
(`src/api/google_tasks.py`, lines 84-103): the Python return value
(`Except.error e` when the function re-raises `e`; `Except.ok none` when
it falls off the end and returns `None`; `Except.ok (some v)` when the
retry callback returned `v`), together with how many times
`refresh_service` was attempted and how many times the retry callback
was invoked. -/
structure HandleResult (α : Type) where
  result : Except ApiError (Option α)
  refreshCalls : Nat
  retryCalls : Nat

/-- Embedding of `GoogleTasksAPI.handle_api_error(operation, error, retry_callback)`.
`refreshOk` is the outcome of `self.refresh_service()` (`false` means it
raised); `retryCallback` is `none` when the optional `retry_callback`
argument is absent, and otherwise carries the result the callback
produces when invoked.  The Python code checks
`error.resp.status in (401, 403)`, refreshes, invokes the callback when
present, and on any exception in that `try` block re-raises the
original `error`; other errors are re-raised unchanged.  (The
`operation` parameter of the Python function is unused there and is
omitted.) -/
def handle_api_error {α : Type} (error : ApiError) (refreshOk : Bool)
    (retryCallback : Option (Except ApiError α)) : HandleResult α :=
  match error with
  | .http s =>
    if s == 401 || s == 403 then
      if refreshOk then
        match retryCallback with
        | some (.ok v) => ⟨.ok (some v), 1, 1⟩
        | some (.error _) => ⟨.error (.http s), 1, 1⟩
        | none => ⟨.ok none, 1, 0⟩
      else ⟨.error (.http s), 1, 0⟩
    else ⟨.error (.http s), 0, 0⟩
  | .other => ⟨.error .other, 0, 0⟩

/-- Outcome of one logical operation run through the retry handler:
the final result, the number of `refresh_service` attempts, and the
total number of invocations of the underlying operation. -/
structure RunResult (α : Type) where
  result : Except ApiError (Option α)
  refreshCalls : Nat
  opCalls : Nat

/-- One logical call in the usage pattern `handle_api_error` is written
for: the caller invokes the operation once; on success that result
stands, and on failure the error is handed to `handle_api_error` with
the operation itself as the retry callback.  `firstResult` is the
outcome of the original invocation and `retryResult` the outcome the
operation would produce if invoked again. -/
def run_with_handler {α : Type} (firstResult : Except ApiError α) (refreshOk : Bool)
    (retryResult : Except ApiError α) : RunResult α :=
  match firstResult with
  | .ok v => ⟨.ok (some v), 0, 1⟩
  | .error e =>
    let h := handle_api_error e refreshOk (some retryResult)
    ⟨h.result, h.refreshCalls, 1 + h.retryCalls⟩

/-- A task list as returned by `tasklists().list` : `id` and `title`. -/
structure TaskListInfo where
  id : String
  title : String
deriving DecidableEq, Repr

/-- A task resource as consumed by `_create_task_items`: `id`, `title`
and `status`. -/
structure TaskData where
  id : String
  title : String
  status : String
deriving DecidableEq, Repr

/-- What `load_tasks_data` ends up attaching under one task-list node of
the tree: either the list's task items (possibly the empty-list
indicator, represented by the empty list), or the red per-list error
child added when `get_tasks` for that list raised. -/
inductive ListContent where
  | tasks (ts : List TaskData)
  | loadError (msg : String)
deriving DecidableEq, Repr

/-- One top-level tree node built by `load_tasks_data`: the task list's
id and title plus its loaded content. -/
structure LoadedList where
  id : String
  title : String
  content : ListContent
deriving DecidableEq, Repr

/-- The per-list loop of `GoogleTasksApp.load_tasks_data`
(`src/ui/components.py`, lines 496-514): each task list is added to the
tree, then its tasks are fetched; if the fetch raises, an error child is
attached to that list and the loop continues with the remaining lists. -/
def loadLists (tasksOf : String → Except String (List TaskData)) :
    List TaskListInfo → List LoadedList
  | [] => []
  | l :: rest =>
    let item :=
      match tasksOf l.id with
      | .ok ts => LoadedList.mk l.id l.title (.tasks ts)
      | .error msg => LoadedList.mk l.id l.title (.loadError msg)
    item :: loadLists tasksOf rest

/-- Embedding of `GoogleTasksApp.load_tasks_data` (`src/ui/components.py`,
lines 469-523).  `listsResult` is the outcome of
`self.tasks_api.get_task_lists()` and `tasksOf lid` the outcome of
`self.tasks_api.get_tasks(lid)`.  When fetching the task-list collection
raises, the method shows an error and returns with the tree cleared
(embedded as `Except.error`); otherwise every list is loaded through the
per-list loop and the load succeeds. -/
def load_tasks_data (listsResult : Except String (List TaskListInfo))
    (tasksOf : String → Except String (List TaskData)) :
    Except String (List LoadedList) :=
  match listsResult with
  | .error msg => .error msg
  | .ok ls => .ok (loadLists tasksOf ls)

/-- Constant `MAX_RESULTS` from `src/api/google_tasks.py`, line 6. -/
def MAX_RESULTS : Nat := 10

/-- Embedding of `GoogleTasksAPI.get_task_lists`: the remote
`tasklists().list(maxResults=MAX_RESULTS)` call returns at most
`MAX_RESULTS` items of the account's task lists, modelled as taking the
first `MAX_RESULTS` of the remote collection `serverLists`. -/
def get_task_lists (serverLists : List TaskListInfo) : List TaskListInfo :=
  serverLists.take MAX_RESULTS

/-- Embedding of `GoogleTasksAPI.get_tasks`: the `tasks().list` call is
made with `showCompleted=True, showHidden=True` and no `maxResults`
argument, so every task of the list is returned. -/
def get_tasks (serverTasks : List TaskData) : List TaskData :=
  serverTasks

/-- OAuth credential material, as held by the `google.oauth2` `Credentials`
object: the access token (`none` when absent), the expiry flag, and
whether a refresh token is present.  `valid` is derived, as in the
library: a token is present and not expired. -/
structure Cred where
  token : Option Nat
  expired : Bool
  refreshToken : Bool
deriving DecidableEq, Repr

/-- Validity of a credential: token present and not expired. -/
def Cred.valid (c : Cred) : Bool :=
  c.token.isSome && !c.expired

/-- Contents of the persisted token file: either material that parses to
a credential, or material `Credentials.from_authorized_user_file` fails
to parse. -/
inductive StoredToken where
  | parsable (c : Cred)
  | corrupt
deriving DecidableEq, Repr

/-- Mutable state of a `GoogleAuthManager`: the in-memory cached
credential `self._credentials` and the contents of `token.json`
(`none` when the file does not exist). -/
structure AuthState where
  memCred : Option Cred
  tokenFile : Option StoredToken
deriving DecidableEq, Repr

/-- Environment of one `get_credentials` call: `refreshResult` is the
outcome of `creds.refresh(Request())` (`some t` = success, the access
token becomes `t`; `none` = the refresh raised), and `flowResult` the
outcome of the interactive flow (`none` = the client-secrets file is
missing, raising `FileNotFoundError`; `some f` = the flow returned the
fresh credential `f`). -/
structure AuthEnv where
  refreshResult : Option Nat
  flowResult : Option Cred
deriving DecidableEq, Repr

/-- Effect of a successful `creds.refresh(Request())`: a fresh access
token, no longer expired; the refresh token is kept. -/
def refreshWith (c : Cred) (t : Nat) : Cred :=
  { c with token := some t, expired := false }

/-- The interactive tail of `get_credentials` (`src/auth/google_auth.py`,
lines 54-67), reached with `creds = None`: run the installed-app flow;
a missing client-secrets file raises (leaving `self._credentials` at its
previous value `origMem` and the token file as `file1`); on success the
fresh credential is written to the token file and then cached. -/
def interactiveAuth (env : AuthEnv) (file1 : Option StoredToken)
    (origMem : Option Cred) : Except Unit Cred × AuthState :=
  match env.flowResult with
  | none => (.error (), ⟨origMem, file1⟩)
  | some f => (.ok f, ⟨some f, some (.parsable f)⟩)

/-- Body of `GoogleAuthManager.get_credentials` past the in-memory cache
check (`src/auth/google_auth.py`, lines 32-70): load the token file
(deleting it when it fails to parse), then, when the loaded credential
is missing or invalid, refresh it if it is expired with a refresh token
(deleting the token file when the refresh raises), run the interactive
flow when no credential remains, and finally cache the result.  Note the
save to the token file happens only inside the interactive branch. -/
def get_credentials_body (s : AuthState) (env : AuthEnv) :
    Except Unit Cred × AuthState :=
  match s.tokenFile with
  | some (.parsable c) =>
    if c.valid then (.ok c, ⟨some c, s.tokenFile⟩)
    else if c.expired && c.refreshToken then
      match env.refreshResult with
      | some t =>
        let c2 := refreshWith c t
        (.ok c2, ⟨some c2, s.tokenFile⟩)
      | none => interactiveAuth env none s.memCred
    else (.ok c, ⟨some c, s.tokenFile⟩)
  | some .corrupt => interactiveAuth env none s.memCred
  | none => interactiveAuth env none s.memCred

/-- Embedding of `GoogleAuthManager.get_credentials`
(`src/auth/google_auth.py`, lines 27-70): when the cached
`self._credentials` is present and valid it is returned with no other
effect; otherwise the body runs. -/
def get_credentials (s : AuthState) (env : AuthEnv) :
    Except Unit Cred × AuthState :=
  match s.memCred with
  | some c => if c.valid then (.ok c, s) else get_credentials_body s env
  | none => get_credentials_body s env

/-- A task payload as fetched by `get_task` and sent back by
`update_task`: the `status` field plus all the other fields of the task
resource, carried through unchanged and abstracted as `rest`. -/
structure TaskPayload where
  status : String
  rest : Nat
deriving DecidableEq, Repr

/-- The status flip of `toggle_task_status`, line 580 of
`src/ui/components.py`: `completed` when the fetched status is
`needsAction`, else `needsAction`. -/
def flipStatus (s : String) : String :=
  if s == "needsAction" then "completed" else "needsAction"

/-- The full mutated payload sent to `update_task`: the fetched task
with only its status field flipped. -/
def flipPayload (t : TaskPayload) : TaskPayload :=
  { t with status := flipStatus t.status }

/-- Environment of one `toggle_task_status` call: outcomes of the first
`get_task`, the first `update_task`, of `refresh_service` in the 403
handler, and of the second `get_task` / `update_task` attempted after
the refresh. -/
structure ToggleEnv where
  firstGet : Except ApiError TaskPayload
  firstUpdate : Except ApiError Unit
  refreshOk : Bool
  secondGet : Except ApiError TaskPayload
  secondUpdate : Except ApiError Unit
deriving Repr

/-- Result of one `toggle_task_status` call: the local item's status
field afterwards, the payloads passed to `update_task` in order, whether
an error was reported (status-bar error message or error dialog), and
whether the 403 handler gave up and called `QApplication.quit()`. -/
structure ToggleResult where
  localStatus : String
  updatesSent : List TaskPayload
  errorShown : Bool
  quitApp : Bool
deriving DecidableEq, Repr

/-- The `except HttpError` handler of `toggle_task_status`
(`src/ui/components.py`, lines 605-646), entered with the raised error
`e` and the update payloads `sent` so far: on status 403 it refreshes
the service and retries the whole fetch-flip-update once, quitting the
application (with the local item untouched) if anything in that retry
raises; any other `HttpError` and any non-HTTP exception is reported
with the local item untouched. -/
def toggle_handle (env : ToggleEnv) (loc : String) (sent : List TaskPayload)
    (e : ApiError) : ToggleResult :=
  match e with
  | .http s =>
    if s == 403 then
      if env.refreshOk then
        match env.secondGet with
        | .error _ => ⟨loc, sent, true, true⟩
        | .ok t2 =>
          let p2 := flipPayload t2
          match env.secondUpdate with
          | .ok _ => ⟨p2.status, sent ++ [p2], false, false⟩
          | .error _ => ⟨loc, sent ++ [p2], true, true⟩
      else ⟨loc, sent, true, true⟩
    else ⟨loc, sent, true, false⟩
  | .other => ⟨loc, sent, true, false⟩

/-- Embedding of `GoogleTasksApp.toggle_task_status`
(`src/ui/components.py`, lines 563-646) for a well-formed task item with
local status `loc`: fetch the task, flip only its status field, send the
full mutated payload to `update_task`, and set the local item's status
only after the update returns; any exception goes to the handler. -/
def toggle_task_status (env : ToggleEnv) (loc : String) : ToggleResult :=
  match env.firstGet with
  | .error e => toggle_handle env loc [] e
  | .ok t =>
    let p := flipPayload t
    match env.firstUpdate with
    | .ok _ => ⟨p.status, [p], false, false⟩
    | .error e => toggle_handle env loc [p] e

/-- Environment in which both remote calls of a toggle succeed and the
remote task is exactly `remote` (no concurrent remote edits). -/
def toggleEnvSucc (remote : TaskPayload) : ToggleEnv :=
  ⟨.ok remote, .ok (), false, .error .other, .error .other⟩

/-- Each `update_task` call replaces the remote task resource with the
payload it was sent; applying the sent updates in order yields the
remote task after the call. -/
def applyUpdates (remote : TaskPayload) (sent : List TaskPayload) : TaskPayload :=
  sent.foldl (fun _ p => p) remote

/-- One successful toggle invocation against remote task `remote` with
local status `loc`: the remote task afterwards and the local status
afterwards. -/
def toggleStep (remote : TaskPayload) (loc : String) : TaskPayload × String :=
  let r := toggle_task_status (toggleEnvSucc remote) loc
  (applyUpdates remote r.updatesSent, r.localStatus)

/-- The predecessor computation of `GoogleTasksApp.on_task_dragged`
(`src/ui/components.py`, lines 842-848): the children of the parent list
item in their current (already reordered) order, `some tid` for a
`TaskTreeItem` with a task id and `none` for any other child item; the
previous-id passed to `move_task` is the id of the child at
`current_index - 1` when the dragged item is not first and that child is
a task item, else `None`. -/
def draggedPrevId (children : List (Option String)) (i : Nat) : Option String :=
  if 0 < i then
    match children.get? (i - 1) with
    | some (some tid) => some tid
    | _ => none
  else none

/-- Result of one `on_task_dragged` call: the previous-id argument of
the `move_task` call it issued, the children order afterwards, whether a
full `load_tasks_data` reload was triggered, and whether an error was
reported. -/
structure DragResult where
  movedPrev : Option String
  childrenAfter : List (Option String)
  reloadTriggered : Bool
  errorShown : Bool
deriving DecidableEq, Repr

/-- Embedding of `GoogleTasksApp.on_task_dragged`
(`src/ui/components.py`, lines 830-857) for a task item at index `i` of
its parent's `children` (the drop already reordered them): compute the
previous id, call `move_task`; on success only a status message is
shown, on failure an error is reported and `load_tasks_data()` is called
to reload everything — the local order is never edited here. -/
def on_task_dragged (children : List (Option String)) (i : Nat)
    (moveOk : Bool) : DragResult :=
  let prev := draggedPrevId children i
  if moveOk then ⟨prev, children, false, false⟩
  else ⟨prev, children, true, true⟩

/-- One task list of the local tree as relevant to deletion: its id and
the ids of its task children. -/
structure LocalList where
  id : String
  taskIds : List String
deriving DecidableEq, Repr

/-- Removal of the selected task item from its parent's children
(`parent_item.removeChild(item)`): the first child with the given id is
removed. -/
def removeTask : List String → String → List String
  | [], _ => []
  | t :: rest, tid => if t == tid then rest else t :: removeTask rest tid

/-- Removal of the selected top-level list item
(`self.tree.takeTopLevelItem(...)`): the first list with the given id is
removed. -/
def removeList : List LocalList → String → List LocalList
  | [], _ => []
  | l :: rest, lid => if l.id == lid then rest else l :: removeList rest lid

/-- Result of one deletion attempt: the local tree afterwards and
whether an error was reported. -/
structure DeleteResult where
  treeAfter : List LocalList
  errorShown : Bool
deriving DecidableEq, Repr

/-- The task branch of `GoogleTasksApp.delete_selected_task`
(`src/ui/components.py`, lines 747-770): after the confirmation dialog
is accepted, `delete_task` is called remotely first; only when it
returns is the item removed from its parent, and when it raises the tree
is untouched and an error is reported. -/
def delete_selected_task (tree : List LocalList) (lid tid : String)
    (confirmed : Bool) (remoteOk : Bool) : DeleteResult :=
  if confirmed then
    if remoteOk then
      ⟨tree.map (fun l => if l.id == lid then ⟨l.id, removeTask l.taskIds tid⟩ else l),
       false⟩
    else ⟨tree, true⟩
  else ⟨tree, false⟩

/-- The task-list branch of `GoogleTasksApp.delete_selected_task`
(`src/ui/components.py`, lines 726-745): after confirmation,
`delete_tasklist` is called remotely first; only when it returns is the
top-level item taken out of the tree, and when it raises the tree is
untouched and an error is reported. -/
def delete_selected_tasklist (tree : List LocalList) (lid : String)
    (confirmed : Bool) (remoteOk : Bool) : DeleteResult :=
  if confirmed then
    if remoteOk then ⟨removeList tree lid, false⟩
    else ⟨tree, true⟩
  else ⟨tree, false⟩

theorem loadLists_length (tasksOf : String → Except String (List TaskData))
    (ls : List TaskListInfo) : (loadLists tasksOf ls).length = ls.length := by
  induction ls with
  | nil => rfl
  | cons l rest ih => simp [loadLists, ih]

theorem loadLists_get? (tasksOf : String → Except String (List TaskData))
    (ls : List TaskListInfo) (i : Nat) (l : TaskListInfo) (h : ls.get? i = some l) :
    (loadLists tasksOf ls).get? i =
      some (match tasksOf l.id with
            | .ok ts => LoadedList.mk l.id l.title (.tasks ts)
            | .error msg => LoadedList.mk l.id l.title (.loadError msg)) := by
  induction ls generalizing i with
  | nil => simp at h
  | cons hd rest ih =>
    cases i with
    | zero =>
      simp only [List.get?] at h
      cases h
      simp [loadLists]
    | succ j =>
      simp only [List.get?] at h
      simpa [loadLists] using ih j h

theorem handle_retryCalls_le_one {α : Type} (e : ApiError) (ro : Bool)
    (cbo : Option (Except ApiError α)) :
    (handle_api_error e ro cbo).retryCalls ≤ 1 := by
  unfold handle_api_error
  rcases e with s | _
  · dsimp only
    split
    · cases ro
      · simp
      · rcases cbo with _ | cb
        · simp
        · rcases cb with e2 | v <;> simp
    · simp
  · simp

/-- Claim C10: listing task lists requests at most `MAX_RESULTS = 10`
task lists, so a full load of an account with more than 10 task lists
shows only the first 10, while listing the tasks inside a list applies
no such limit. -/
theorem c10_task_list_cap (serverLists : List TaskListInfo)
    (serverTasks : List TaskData)
    (tasksOf : String → Except String (List TaskData)) :
    MAX_RESULTS = 10 ∧
    (get_task_lists serverLists).length ≤ MAX_RESULTS ∧
    get_task_lists serverLists = serverLists.take MAX_RESULTS ∧
    (MAX_RESULTS < serverLists.length →
      (get_task_lists serverLists).length = MAX_RESULTS) ∧
    get_tasks serverTasks = serverTasks ∧
    load_tasks_data (.ok (get_task_lists serverLists)) tasksOf =
      .ok (loadLists tasksOf (get_task_lists serverLists)) ∧
    (loadLists tasksOf (get_task_lists serverLists)).length =
      min MAX_RESULTS serverLists.length := by
  refine ⟨rfl, ?_, rfl, ?_, rfl, rfl, ?_⟩
  · simp only [get_task_lists, List.length_take]
    exact Nat.min_le_left _ _
  · intro h
    simp [get_task_lists, List.length_take, Nat.min_eq_left (Nat.le_of_lt h)]
  · simp [loadLists_length, get_task_lists, List.length_take]

/-- Witness for C10 at an account with 11 task lists: the load shows
exactly 10 of them, and task listing is uncapped. -/
theorem c10_witness :
    (get_task_lists (List.replicate 11 (TaskListInfo.mk "l" "t"))).length =
      MAX_RESULTS ∧
    get_tasks [TaskData.mk "a" "b" "needsAction"] =
      [TaskData.mk "a" "b" "needsAction"] := by
  have h := c10_task_list_cap (List.replicate 11 (TaskListInfo.mk "l" "t"))
    [TaskData.mk "a" "b" "needsAction"] (fun _ => .ok [])
  exact ⟨h.2.2.2.1 (by simp [h.1]), h.2.2.2.2.1⟩

/-- Claim C3: a failure fetching one list's tasks is isolated — the
list still appears carrying a per-list error marker, every other list is
still loaded, and the load as a whole succeeds; a failure fetching the
task-list collection itself fails the whole load, producing no lists. -/
theorem c3_partial_load_isolation (ls : List TaskListInfo)
    (tasksOf : String → Except String (List TaskData)) :
    (∀ msg, load_tasks_data (.error msg) tasksOf = .error msg) ∧
    load_tasks_data (.ok ls) tasksOf = .ok (loadLists tasksOf ls) ∧
    (loadLists tasksOf ls).length = ls.length ∧
    (∀ i l msg, ls.get? i = some l → tasksOf l.id = .error msg →
      (loadLists tasksOf ls).get? i = some ⟨l.id, l.title, .loadError msg⟩) ∧
    (∀ i l ts, ls.get? i = some l → tasksOf l.id = .ok ts →
      (loadLists tasksOf ls).get? i = some ⟨l.id, l.title, .tasks ts⟩) := by
  refine ⟨fun msg => rfl, rfl, loadLists_length tasksOf ls, ?_, ?_⟩
  · intro i l msg hi ht
    rw [loadLists_get? tasksOf ls i l hi, ht]
  · intro i l ts hi ht
    rw [loadLists_get? tasksOf ls i l hi, ht]

/-- Witness for C3: two lists where the second list's task fetch fails —
the load succeeds, list A is populated, list B carries the error
marker; and a failing task-list fetch fails the whole load. -/
theorem c3_witness :
    (loadLists
        (fun lid => if lid == "A" then .ok [TaskData.mk "t1" "x" "needsAction"]
                    else .error "boom")
        [TaskListInfo.mk "A" "ta", TaskListInfo.mk "B" "tb"]).get? 1 =
      some ⟨"B", "tb", .loadError "boom"⟩ ∧
    (loadLists
        (fun lid => if lid == "A" then .ok [TaskData.mk "t1" "x" "needsAction"]
                    else .error "boom")
        [TaskListInfo.mk "A" "ta", TaskListInfo.mk "B" "tb"]).get? 0 =
      some ⟨"A", "ta", .tasks [TaskData.mk "t1" "x" "needsAction"]⟩ ∧
    load_tasks_data (Except.error "fatal")
        (fun lid => if lid == "A" then .ok [TaskData.mk "t1" "x" "needsAction"]
                    else .error "boom") = .error "fatal" := by
  have h := c3_partial_load_isolation
    [TaskListInfo.mk "A" "ta", TaskListInfo.mk "B" "tb"]
    (fun lid => if lid == "A" then .ok [TaskData.mk "t1" "x" "needsAction"]
                else .error "boom")
  exact ⟨h.2.2.2.1 1 (TaskListInfo.mk "B" "tb") "boom" rfl rfl,
         h.2.2.2.2 0 (TaskListInfo.mk "A" "ta") _ rfl rfl,
         h.1 "fatal"⟩

/-- Claim C1: an operation run through the retry handler is invoked at
most twice; an authorization failure (401 or 403) with a working refresh
triggers exactly one refresh and exactly one retry, and when the retry
fails with an authorization failure too, the terminal error is surfaced
with no further retry. -/
theorem c1_retry_bound {α : Type} (first : Except ApiError α) (refreshOk : Bool)
    (retry : Except ApiError α) :
    (run_with_handler first refreshOk retry).opCalls ≤ 2 ∧
    (∀ s, first = .error (.http s) → (s = 401 ∨ s = 403) → refreshOk = true →
      (run_with_handler first refreshOk retry).refreshCalls = 1 ∧
      (run_with_handler first refreshOk retry).opCalls = 2 ∧
      (∀ s2, retry = .error (.http s2) → (s2 = 401 ∨ s2 = 403) →
        (run_with_handler first refreshOk retry).result = .error (.http s))) := by
  constructor
  · rcases first with e | v
    · have h := handle_retryCalls_le_one (α := α) e refreshOk (some retry)
      simp only [run_with_handler]
      omega
    · simp [run_with_handler]
  · rintro s rfl hs rfl
    have hs4 : (s == 401 || s == 403) = true := by
      rcases hs with rfl | rfl <;> rfl
    refine ⟨?_, ?_, ?_⟩
    · rcases retry with e2 | v <;>
        simp [run_with_handler, handle_api_error, hs4]
    · rcases retry with e2 | v <;>
        simp [run_with_handler, handle_api_error, hs4]
    · rintro s2 rfl hs2
      simp [run_with_handler, handle_api_error, hs4]

/-- Witness for C1: an operation failing 401 then 403 is called exactly
twice, with one refresh, and the terminal surfaced error is the original
401. -/
theorem c1_witness :
    (run_with_handler (α := Nat) (.error (.http 401)) true
        (.error (.http 403))).opCalls = 2 ∧
    (run_with_handler (α := Nat) (.error (.http 401)) true
        (.error (.http 403))).refreshCalls = 1 ∧
    (run_with_handler (α := Nat) (.error (.http 401)) true
        (.error (.http 403))).result = .error (.http 401) := by
  have h := (c1_retry_bound (α := Nat) (.error (.http 401)) true
    (.error (.http 403))).2 401 rfl (Or.inl rfl) rfl
  exact ⟨h.2.1, h.1, h.2.2 403 rfl (Or.inr rfl)⟩

/-- Claim C7 counterexample: when `handle_api_error` is called without a
retry callback on an authorization failure and the forced refresh
succeeds, it falls off the end and returns `None` normally — the error
is discarded without having been retried, contradicting the claim that
the error-handling path never returns normally while discarding an error
it neither healed nor retried. -/
theorem c7_counterexample :
    (handle_api_error (α := Nat) (.http 403) true none).result = .ok none ∧
    (handle_api_error (α := Nat) (.http 403) true none).retryCalls = 0 := by
  exact ⟨rfl, rfl⟩

/-- Claim C7 as amended: when a retry callback is supplied, every error
reaching `handle_api_error` either propagates (re-raised unchanged) or
is healed by the single successful retry, and the only way the handler
can return normally while discarding the error is the
no-retry-callback case: an authorization failure whose forced refresh
succeeded. -/
theorem c7_no_silent_swallow {α : Type} (e : ApiError) (ro : Bool)
    (cbo : Option (Except ApiError α)) :
    (∀ cb, cbo = some cb →
      ((handle_api_error e ro cbo).result = .error e ∨
       ∃ v, cb = .ok v ∧ (handle_api_error e ro cbo).result = .ok (some v))) ∧
    ((handle_api_error e ro cbo).result = .ok none →
      cbo = none ∧ ro = true ∧ ∃ s, e = .http s ∧ (s = 401 ∨ s = 403)) := by
  constructor
  · rintro cb rfl
    rcases e with s | _
    · unfold handle_api_error
      dsimp only
      split
      · cases ro
        · simp
        · rcases cb with e2 | v
          · simp
          · exact Or.inr ⟨v, rfl, rfl⟩
      · simp
    · simp [handle_api_error]
  · intro hres
    rcases e with s | _
    · unfold handle_api_error at hres
      dsimp only at hres
      by_cases hs : (s == 401 || s == 403) = true
      · rw [if_pos hs] at hres
        cases ro
        · simp at hres
        · rcases cbo with _ | cb
          · refine ⟨rfl, rfl, s, rfl, ?_⟩
            rcases Bool.or_eq_true_iff.mp hs with h1 | h1
            · exact Or.inl (by simpa using h1)
            · exact Or.inr (by simpa using h1)
          · rcases cb with e2 | v <;> simp at hres
      · rw [if_neg hs] at hres
        simp at hres
    · simp [handle_api_error] at hres

/-- Witness for C7 (amended): a non-authorization HTTP 500 with a retry
callback supplied either propagates or was healed by a successful
retry. -/
theorem c7_witness :
    (handle_api_error (α := Nat) (.http 500) true
        (some (.ok 5))).result = .error (.http 500) ∨
    ∃ v, (Except.ok 5 : Except ApiError Nat) = .ok v ∧
      (handle_api_error (α := Nat) (.http 500) true
        (some (.ok 5))).result = .ok (some v) :=
  (c7_no_silent_swallow (.http 500) true (some (.ok 5))).1 (.ok 5) rfl

/-- Claim C4: the remote move call takes as predecessor the id of the
child immediately before the moved task in the current (already
optimistically reordered) local order, `None` when the task is now
first; on remote failure the local order is not reversed and a full
reload is triggered. -/
theorem c4_move_predecessor (children : List (Option String)) (i : Nat)
    (moveOk : Bool) :
    (i = 0 → (on_task_dragged children i moveOk).movedPrev = none) ∧
    (∀ p, 0 < i → children.get? (i - 1) = some (some p) →
      (on_task_dragged children i moveOk).movedPrev = some p) ∧
    (moveOk = false →
      (on_task_dragged children i moveOk).reloadTriggered = true ∧
      (on_task_dragged children i moveOk).childrenAfter = children ∧
      (on_task_dragged children i moveOk).errorShown = true) ∧
    (moveOk = true →
      (on_task_dragged children i moveOk).reloadTriggered = false ∧
      (on_task_dragged children i moveOk).childrenAfter = children) := by
  refine ⟨?_, ?_, ?_, ?_⟩
  · rintro rfl
    cases moveOk <;> simp [on_task_dragged, draggedPrevId]
  · intro p hi hget
    have hget2 : children[i - 1]? = some (some p) := by
      simpa [← List.get?_eq_getElem?] using hget
    cases moveOk <;> simp [on_task_dragged, draggedPrevId, hi, hget2]
  · rintro rfl
    simp [on_task_dragged]
  · rintro rfl
    simp [on_task_dragged]

/-- Witness for C4: a task dragged to index 1 of a two-task list whose
remote move fails — the move call carried the id of the task now before
it, the local order is untouched and a reload is triggered. -/
theorem c4_witness :
    (on_task_dragged [some "a", some "b"] 1 false).movedPrev = some "a" ∧
    (on_task_dragged [some "a", some "b"] 1 false).reloadTriggered = true ∧
    (on_task_dragged [some "a", some "b"] 1 false).childrenAfter =
      [some "a", some "b"] := by
  have h := c4_move_predecessor [some "a", some "b"] 1 false
  exact ⟨h.2.1 "a" (by decide) rfl, (h.2.2.1 rfl).1, (h.2.2.1 rfl).2.1⟩

theorem removeTask_subset (tid : String) (xs : List String) (x : String)
    (h : x ∈ removeTask xs tid) : x ∈ xs := by
  induction xs with
  | nil => simp [removeTask] at h
  | cons t rest ih =>
    by_cases ht : t = tid
    · rw [removeTask, if_pos (by simpa using ht)] at h
      exact List.mem_cons_of_mem t h
    · rw [removeTask, if_neg (by simpa using ht)] at h
      rcases List.mem_cons.mp h with rfl | h2
      · exact List.mem_cons_self x rest
      · exact List.mem_cons_of_mem t (ih h2)

theorem removeTask_mem_of_ne (tid : String) (xs : List String) (x : String)
    (hx : x ∈ xs) (hne : x ≠ tid) : x ∈ removeTask xs tid := by
  induction xs with
  | nil => simp at hx
  | cons t rest ih =>
    by_cases ht : t = tid
    · rw [removeTask, if_pos (by simpa using ht)]
      rcases List.mem_cons.mp hx with rfl | h2
      · exact absurd ht hne
      · exact h2
    · rw [removeTask, if_neg (by simpa using ht)]
      rcases List.mem_cons.mp hx with rfl | h2
      · exact List.mem_cons_self x _
      · exact List.mem_cons_of_mem t (ih h2)

theorem removeTask_length (tid : String) (xs : List String)
    (h : tid ∈ xs) : (removeTask xs tid).length + 1 = xs.length := by
  induction xs with
  | nil => simp at h
  | cons t rest ih =>
    by_cases ht : t = tid
    · rw [removeTask, if_pos (by simpa using ht)]
      simp
    · rw [removeTask, if_neg (by simpa using ht)]
      have h2 : tid ∈ rest := by
        rcases List.mem_cons.mp h with h1 | h1
        · exact absurd h1.symm ht
        · exact h1
      simp [ih h2]

theorem removeList_mem_of_ne (lid : String) (tree : List LocalList)
    (l : LocalList) (hl : l ∈ tree) (hne : l.id ≠ lid) :
    l ∈ removeList tree lid := by
  induction tree with
  | nil => simp at hl
  | cons t rest ih =>
    by_cases ht : t.id = lid
    · rw [removeList, if_pos (by simpa using ht)]
      rcases List.mem_cons.mp hl with rfl | h2
      · exact absurd ht hne
      · exact h2
    · rw [removeList, if_neg (by simpa using ht)]
      rcases List.mem_cons.mp hl with rfl | h2
      · exact List.mem_cons_self l _
      · exact List.mem_cons_of_mem t (ih h2)

theorem removeList_length (lid : String) (tree : List LocalList)
    (h : ∃ l ∈ tree, l.id = lid) : (removeList tree lid).length + 1 = tree.length := by
  induction tree with
  | nil => simp at h
  | cons t rest ih =>
    by_cases ht : t.id = lid
    · rw [removeList, if_pos (by simpa using ht)]
      simp
    · rw [removeList, if_neg (by simpa using ht)]
      have h2 : ∃ l ∈ rest, l.id = lid := by
        rcases h with ⟨l, hl, hid⟩
        rcases List.mem_cons.mp hl with rfl | hmem
        · exact absurd hid ht
        · exact ⟨l, hmem, hid⟩
      simp [ih h2]

/-- Claim C9: a deletion calls the remote delete first and removes the
local entry only when the remote delete succeeds; on remote failure the
whole local tree is unchanged and an error is reported; on success only
the targeted entry is removed and every other entry is untouched. -/
theorem c9_delete_remote_first (tree : List LocalList) (lid tid : String) :
    delete_selected_task tree lid tid true false = ⟨tree, true⟩ ∧
    delete_selected_tasklist tree lid true false = ⟨tree, true⟩ ∧
    (∀ i l, tree.get? i = some l →
      (delete_selected_task tree lid tid true true).treeAfter.get? i =
        some (if l.id == lid then ⟨l.id, removeTask l.taskIds tid⟩ else l)) ∧
    (∀ xs x, x ∈ removeTask xs tid → x ∈ xs) ∧
    (∀ xs x, x ∈ xs → x ≠ tid → x ∈ removeTask xs tid) ∧
    (∀ xs, tid ∈ xs → (removeTask xs tid).length + 1 = xs.length) ∧
    (∀ l, l ∈ tree → l.id ≠ lid →
      l ∈ (delete_selected_tasklist tree lid true true).treeAfter) ∧
    ((∃ l ∈ tree, l.id = lid) → (removeList tree lid).length + 1 = tree.length) := by
  refine ⟨rfl, rfl, ?_, ?_, ?_, ?_, ?_, removeList_length lid tree⟩
  · intro i l hi
    have : (delete_selected_task tree lid tid true true).treeAfter =
        tree.map (fun l => if l.id == lid then ⟨l.id, removeTask l.taskIds tid⟩ else l) :=
      rfl
    rw [this, List.get?_eq_getElem?, List.getElem?_map,
      ← List.get?_eq_getElem?, hi]
    rfl
  · exact fun xs x h => removeTask_subset tid xs x h
  · exact fun xs x hx hne => removeTask_mem_of_ne tid xs x hx hne
  · exact fun xs h => removeTask_length tid xs h
  · exact fun l hl hne => removeList_mem_of_ne lid tree l hl hne

/-- Witness for C9: a two-list tree where the remote delete of task `b`
in list `L1` fails (tree unchanged, error reported) and where it
succeeds (task `b` removed, list `L2` untouched). -/
theorem c9_witness :
    delete_selected_task
        [LocalList.mk "L1" ["a", "b"], LocalList.mk "L2" ["c"]] "L1" "b" true false =
      ⟨[LocalList.mk "L1" ["a", "b"], LocalList.mk "L2" ["c"]], true⟩ ∧
    (delete_selected_task
        [LocalList.mk "L1" ["a", "b"], LocalList.mk "L2" ["c"]]
        "L1" "b" true true).treeAfter.get? 0 = some (LocalList.mk "L1" ["a"]) ∧
    (delete_selected_task
        [LocalList.mk "L1" ["a", "b"], LocalList.mk "L2" ["c"]]
        "L1" "b" true true).treeAfter.get? 1 = some (LocalList.mk "L2" ["c"]) := by
  have h := c9_delete_remote_first
    [LocalList.mk "L1" ["a", "b"], LocalList.mk "L2" ["c"]] "L1" "b"
  refine ⟨h.1, ?_, ?_⟩
  · have h0 := h.2.2.1 0 (LocalList.mk "L1" ["a", "b"]) rfl
    simpa [removeTask] using h0
  · have h1 := h.2.2.1 1 (LocalList.mk "L2" ["c"]) rfl
    simpa using h1

/-- Claim C8: with both remote updates succeeding, no concurrent remote
edits and the local status in sync with the remote one, toggling twice
flips the status twice, returning both the remote task and the local
status to their original values; the first toggle really flips
(no outcome skipping). -/
theorem c8_double_toggle (remote : TaskPayload) (loc : String)
    (h1 : remote.status = "needsAction" ∨ remote.status = "completed")
    (h2 : loc = remote.status) :
    (toggleStep (toggleStep remote loc).1 (toggleStep remote loc).2).1 = remote ∧
    (toggleStep (toggleStep remote loc).1 (toggleStep remote loc).2).2 = loc ∧
    (toggleStep remote loc).1.status ≠ remote.status ∧
    (toggleStep remote loc).2 = (toggleStep remote loc).1.status := by
  rcases remote with ⟨st, rest⟩
  dsimp only at h1 h2
  subst h2
  rcases h1 with h | h <;> subst h
  · exact ⟨rfl, rfl, (by decide : ("completed" : String) ≠ "needsAction"), rfl⟩
  · exact ⟨rfl, rfl, (by decide : ("needsAction" : String) ≠ "completed"), rfl⟩

/-- Witness for C8: a concrete `needsAction` task toggled twice ends
`needsAction` again, both remotely and locally. -/
theorem c8_witness :
    (toggleStep (toggleStep (TaskPayload.mk "needsAction" 7) "needsAction").1
        (toggleStep (TaskPayload.mk "needsAction" 7) "needsAction").2).1 =
      TaskPayload.mk "needsAction" 7 ∧
    (toggleStep (toggleStep (TaskPayload.mk "needsAction" 7) "needsAction").1
        (toggleStep (TaskPayload.mk "needsAction" 7) "needsAction").2).2 =
      "needsAction" ∧
    (toggleStep (TaskPayload.mk "needsAction" 7) "needsAction").1.status ≠
      "needsAction" := by
  have h := c8_double_toggle (TaskPayload.mk "needsAction" 7) "needsAction"
    (Or.inl rfl) rfl
  exact ⟨h.1, h.2.1, h.2.2.1⟩

theorem toggle_handle_cases (env : ToggleEnv) (loc : String)
    (sent : List TaskPayload) (e : ApiError) :
    toggle_handle env loc sent e = ⟨loc, sent, true, true⟩ ∨
    toggle_handle env loc sent e = ⟨loc, sent, true, false⟩ ∨
    (∃ t2, env.secondGet = .ok t2 ∧
      toggle_handle env loc sent e = ⟨loc, sent ++ [flipPayload t2], true, true⟩) ∨
    (∃ t2, env.secondGet = .ok t2 ∧ env.secondUpdate = .ok () ∧
      toggle_handle env loc sent e =
        ⟨(flipPayload t2).status, sent ++ [flipPayload t2], false, false⟩) := by
  unfold toggle_handle
  rcases e with s | _
  · dsimp only
    split
    · cases hro : env.refreshOk
      · exact Or.inl rfl
      · rcases hsg : env.secondGet with e2 | t2
        · exact Or.inl rfl
        · rcases hsu : env.secondUpdate with e3 | u
          · exact Or.inr (Or.inr (Or.inl ⟨t2, by first | exact hsg | rfl, rfl⟩))
          · cases u
            exact Or.inr (Or.inr (Or.inr ⟨t2, by first | exact hsg | rfl,
              by first | exact hsu | rfl, rfl⟩))
    · exact Or.inr (Or.inl rfl)
  · exact Or.inr (Or.inl rfl)

/-- Claim C5: a toggle fetches the current remote task first, flips only
the status field of the full payload, and sends that full mutated
payload in the update; the local status is mutated only after a remote
update succeeds, and on any non-authorization failure the local status
is unchanged and the error is reported. -/
theorem c5_toggle_flow (env : ToggleEnv) (loc : String) :
    (∀ p, p ∈ (toggle_task_status env loc).updatesSent →
      ∃ t, (env.firstGet = .ok t ∨ env.secondGet = .ok t) ∧ p = flipPayload t) ∧
    (∀ t, env.firstGet = .ok t → env.firstUpdate = .ok () →
      toggle_task_status env loc =
        ⟨(flipPayload t).status, [flipPayload t], false, false⟩) ∧
    (∀ s, env.firstGet = .error (.http s) → s ≠ 401 → s ≠ 403 →
      toggle_task_status env loc = ⟨loc, [], true, false⟩) ∧
    (env.firstGet = .error .other →
      toggle_task_status env loc = ⟨loc, [], true, false⟩) ∧
    (∀ t s, env.firstGet = .ok t → env.firstUpdate = .error (.http s) →
      s ≠ 401 → s ≠ 403 →
      toggle_task_status env loc = ⟨loc, [flipPayload t], true, false⟩) ∧
    (∀ t, env.firstGet = .ok t → env.firstUpdate = .error .other →
      toggle_task_status env loc = ⟨loc, [flipPayload t], true, false⟩) ∧
    ((toggle_task_status env loc).errorShown = true →
      (toggle_task_status env loc).localStatus = loc) := by
  refine ⟨?_, ?_, ?_, ?_, ?_, ?_, ?_⟩
  · intro p hp
    rcases hfg : env.firstGet with e | t
    · have ht : toggle_task_status env loc = toggle_handle env loc [] e := by
        simp [toggle_task_status, hfg]
      rw [ht] at hp
      rcases toggle_handle_cases env loc [] e with h | h | ⟨t2, hsg, h⟩ | ⟨t2, hsg, _, h⟩ <;>
        rw [h] at hp <;> simp at hp
      · exact ⟨t2, Or.inr (by first | exact hsg | rfl), hp⟩
      · exact ⟨t2, Or.inr (by first | exact hsg | rfl), hp⟩
    · rcases hfu : env.firstUpdate with e | u
      · have ht : toggle_task_status env loc =
            toggle_handle env loc [flipPayload t] e := by
          simp [toggle_task_status, hfg, hfu]
        rw [ht] at hp
        rcases toggle_handle_cases env loc [flipPayload t] e with
          h | h | ⟨t2, hsg, h⟩ | ⟨t2, hsg, _, h⟩ <;> rw [h] at hp <;> simp at hp
        · exact ⟨t, Or.inl (by first | exact hfg | rfl), hp⟩
        · exact ⟨t, Or.inl (by first | exact hfg | rfl), hp⟩
        · rcases hp with hp | hp
          · exact ⟨t, Or.inl (by first | exact hfg | rfl), hp⟩
          · exact ⟨t2, Or.inr (by first | exact hsg | rfl), hp⟩
        · rcases hp with hp | hp
          · exact ⟨t, Or.inl (by first | exact hfg | rfl), hp⟩
          · exact ⟨t2, Or.inr (by first | exact hsg | rfl), hp⟩
      · cases u
        have ht : toggle_task_status env loc =
            ⟨(flipPayload t).status, [flipPayload t], false, false⟩ := by
          simp [toggle_task_status, hfg, hfu]
        rw [ht] at hp
        simp at hp
        exact ⟨t, Or.inl (by first | exact hfg | rfl), hp⟩
  · intro t hfg hfu
    simp [toggle_task_status, hfg, hfu]
  · intro s hfg h1 h3
    have h43 : (s == 403) = false := by simpa using h3
    simp [toggle_task_status, hfg, toggle_handle, h43]
  · intro hfg
    simp [toggle_task_status, hfg, toggle_handle]
  · intro t s hfg hfu h1 h3
    have h43 : (s == 403) = false := by simpa using h3
    simp [toggle_task_status, hfg, hfu, toggle_handle, h43]
  · intro t hfg hfu
    simp [toggle_task_status, hfg, hfu, toggle_handle]
  · intro hE
    rcases hfg : env.firstGet with e | t
    · have ht : toggle_task_status env loc = toggle_handle env loc [] e := by
        simp [toggle_task_status, hfg]
      rw [ht] at hE ⊢
      rcases toggle_handle_cases env loc [] e with h | h | ⟨t2, _, h⟩ | ⟨t2, _, _, h⟩ <;>
        rw [h] at hE ⊢ <;> first | rfl | simp at hE
    · rcases hfu : env.firstUpdate with e | u
      · have ht : toggle_task_status env loc =
            toggle_handle env loc [flipPayload t] e := by
          simp [toggle_task_status, hfg, hfu]
        rw [ht] at hE ⊢
        rcases toggle_handle_cases env loc [flipPayload t] e with
          h | h | ⟨t2, _, h⟩ | ⟨t2, _, _, h⟩ <;> rw [h] at hE ⊢ <;>
          first | rfl | simp at hE
      · cases u
        have ht : toggle_task_status env loc =
            ⟨(flipPayload t).status, [flipPayload t], false, false⟩ := by
          simp [toggle_task_status, hfg, hfu]
        rw [ht] at hE
        simp at hE

/-- Witness for C5: a toggle whose update fails with HTTP 404 leaves the
local status untouched and reports the error, having sent exactly the
fetched payload with only its status flipped. -/
theorem c5_witness :
    toggle_task_status
        ⟨.ok (TaskPayload.mk "needsAction" 3), .error (.http 404), false,
         .error .other, .error .other⟩ "needsAction" =
      ⟨"needsAction", [TaskPayload.mk "completed" 3], true, false⟩ := by
  have h := (c5_toggle_flow
    ⟨.ok (TaskPayload.mk "needsAction" 3), .error (.http 404), false,
     .error .other, .error .other⟩ "needsAction").2.2.2.2.1
    (TaskPayload.mk "needsAction" 3) 404 rfl rfl (by decide) (by decide)
  simpa [flipPayload, flipStatus] using h

theorem body_caches (s : AuthState) (env : AuthEnv) (c : Cred)
    (h : (get_credentials_body s env).1 = .ok c) :
    (get_credentials_body s env).2.memCred = some c := by
  rcases s with ⟨mem, file⟩
  rcases env with ⟨rr, fr⟩
  unfold get_credentials_body interactiveAuth at h ⊢
  rcases file with _ | st
  · dsimp only at h ⊢
    rcases fr with _ | f
    · simp at h
    · simp at h ⊢
      exact h
  · rcases st with c1 | _
    · dsimp only at h ⊢
      by_cases hv : c1.valid = true
      · simp [hv] at h ⊢
        exact h
      · simp [hv] at h ⊢
        by_cases he1 : c1.expired = true
        · by_cases he2 : c1.refreshToken = true
          · simp [he1, he2] at h ⊢
            rcases rr with _ | t
            · dsimp only at h ⊢
              rcases fr with _ | f
              · simp at h
              · simp at h ⊢
                exact h
            · simp at h ⊢
              exact h
          · simp [he1, he2] at h ⊢
            exact h
        · simp [he1] at h ⊢
          exact h
    · dsimp only at h ⊢
      rcases fr with _ | f
      · simp at h
      · simp at h ⊢
        exact h

/-- Claim C2 counterexample: a stored expired credential with a refresh
token whose refresh succeeds — `get_credentials` returns and caches the
refreshed credential, but the token file still holds the pre-refresh
material (the save sits inside the interactive-authentication branch),
so the resulting credential is not persisted to storage. -/
theorem c2_counterexample :
    (get_credentials ⟨none, some (.parsable ⟨some 0, true, true⟩)⟩
        ⟨some 1, none⟩).1 = .ok ⟨some 1, false, true⟩ ∧
    (get_credentials ⟨none, some (.parsable ⟨some 0, true, true⟩)⟩
        ⟨some 1, none⟩).2.memCred = some ⟨some 1, false, true⟩ ∧
    (get_credentials ⟨none, some (.parsable ⟨some 0, true, true⟩)⟩
        ⟨some 1, none⟩).2.tokenFile = some (.parsable ⟨some 0, true, true⟩) ∧
    Cred.mk (some 1) false true ≠ Cred.mk (some 0) true true :=
  ⟨rfl, rfl, rfl, by decide⟩

/-- Claim C2 as amended: every successful acquisition caches the
resulting credential as the current in-memory credential, and the
interactive-authentication path also persists it to storage; but the
refresh path leaves the pre-refresh material in storage (the resulting
credential is cached without being persisted). -/
theorem c2_credential_caching (s : AuthState) (env : AuthEnv) :
    (∀ c, (get_credentials s env).1 = .ok c →
      (get_credentials s env).2.memCred = some c) ∧
    (∀ f, (∀ c, s.memCred = some c → c.valid = false) → s.tokenFile = none →
      env.flowResult = some f →
      get_credentials s env = (.ok f, ⟨some f, some (.parsable f)⟩)) ∧
    (∀ c t, (∀ c2, s.memCred = some c2 → c2.valid = false) →
      s.tokenFile = some (.parsable c) → c.valid = false →
      c.expired = true → c.refreshToken = true → env.refreshResult = some t →
      get_credentials s env =
        (.ok (refreshWith c t), ⟨some (refreshWith c t), some (.parsable c)⟩)) := by
  refine ⟨?_, ?_, ?_⟩
  · intro c h
    rcases hm : s.memCred with _ | c0
    · have hgc : get_credentials s env = get_credentials_body s env := by
        simp [get_credentials, hm]
      rw [hgc] at h ⊢
      exact body_caches s env c h
    · by_cases hv : c0.valid = true
      · have hgc : get_credentials s env = (.ok c0, s) := by
          simp [get_credentials, hm, hv]
        rw [hgc] at h ⊢
        simp at h
        rw [hm, h]
      · have hgc : get_credentials s env = get_credentials_body s env := by
          simp [get_credentials, hm, hv]
        rw [hgc] at h ⊢
        exact body_caches s env c h
  · intro f hmem hfile hflow
    rcases hm : s.memCred with _ | c0
    · simp [get_credentials, hm, get_credentials_body, interactiveAuth, hfile, hflow]
    · have hv := hmem c0 hm
      simp [get_credentials, hm, hv, get_credentials_body, interactiveAuth,
        hfile, hflow]
  · intro c t hmem hfile hv hexp href hr
    rcases hm : s.memCred with _ | c0
    · simp [get_credentials, hm, get_credentials_body, hfile, hv, hexp, href, hr]
    · have hv0 := hmem c0 hm
      simp [get_credentials, hm, hv0, get_credentials_body, hfile, hv, hexp,
        href, hr]

/-- Witness for C2 (amended): with nothing cached or stored and the
interactive flow succeeding, the fresh credential is both cached and
persisted. -/
theorem c2_witness :
    get_credentials ⟨none, none⟩ ⟨none, some ⟨some 7, false, true⟩⟩ =
      (.ok ⟨some 7, false, true⟩,
       ⟨some ⟨some 7, false, true⟩, some (.parsable ⟨some 7, false, true⟩)⟩) :=
  (c2_credential_caching ⟨none, none⟩ ⟨none, some ⟨some 7, false, true⟩⟩).2.1
    ⟨some 7, false, true⟩ (fun _ h => nomatch h) rfl rfl

/-- Claim C6: when the in-memory credential is not usable and the stored
token material is corrupt, `get_credentials` behaves exactly as if no
credential were stored (it does not crash and does not loop), and the
corrupt material is discarded: afterwards the token file never holds the
corrupt blob again. -/
theorem c6_corrupt_token_self_heal (s : AuthState) (env : AuthEnv)
    (hmem : ∀ c, s.memCred = some c → c.valid = false)
    (hfile : s.tokenFile = some .corrupt) :
    get_credentials s env = get_credentials ⟨s.memCred, none⟩ env ∧
    (get_credentials s env).2.tokenFile ≠ some .corrupt := by
  rcases s with ⟨mem, file⟩
  dsimp only at hmem hfile ⊢
  subst hfile
  constructor
  · rcases mem with _ | c0
    · rfl
    · have hv := hmem c0 rfl
      simp [get_credentials, hv, get_credentials_body, interactiveAuth]
  · rcases env with ⟨rr, fr⟩
    rcases mem with _ | c0
    · rcases fr with _ | f <;>
        simp [get_credentials, get_credentials_body, interactiveAuth]
    · have hv := hmem c0 rfl
      rcases fr with _ | f <;>
        simp [get_credentials, get_credentials_body, interactiveAuth, hv]

/-- Witness for C6: a corrupt token file with an empty cache loads
exactly like an absent token file, and the corrupt blob is gone
afterwards. -/
theorem c6_witness :
    get_credentials ⟨none, some .corrupt⟩ ⟨none, some ⟨some 3, false, true⟩⟩ =
      get_credentials ⟨none, none⟩ ⟨none, some ⟨some 3, false, true⟩⟩ ∧
    (get_credentials ⟨none, some .corrupt⟩
        ⟨none, some ⟨some 3, false, true⟩⟩).2.tokenFile ≠ some .corrupt :=
  c6_corrupt_token_self_heal ⟨none, some .corrupt⟩
    ⟨none, some ⟨some 3, false, true⟩⟩ (fun _ h => nomatch h) rfl

end GTasks
